import Mathlib

/-!
Verification of the enablement-gating state machine and action-dispatch
router of `git_gutter.py` (`GitGutterCommand`), as a shallow embedding.

Collaborator calls (diff-handler `clear`, view-setting writes, work-tree
resolution, cache invalidation, refresh, action handlers, popup display)
are recorded as an effect trace; the mutable fields of the router
(`self._enabled` and the view setting `git_gutter_enabled`) form an
explicit state that each evaluation threads through.
-/

namespace GitGutter

/-- Observable collaborator calls made by the command, in program order. -/
inductive Effect where
  | clear : Effect
  | setSetting : Bool → Effect
  | workTreeCall : Bool → Effect
  | invalidateGitFile : Effect
  | refresh : Effect
  | jumpToNextChange : Effect
  | jumpToPrevChange : Effect
  | compareCommit : Effect
  | compareFileCommit : Effect
  | compareBranch : Effect
  | compareTag : Effect
  | compareHead : Effect
  | compareOrigin : Effect
  | showCompare : Effect
  | popupShow : Int → Bool → Int → Effect
  deriving DecidableEq, Repr

/-- Process-wide configuration (`git_gutter_settings.settings`):
truthiness of `settings.git_binary_path`. -/
structure Settings where
  git_binary_path : Bool
  deriving DecidableEq, Repr

/-- The flags of `self.view` that `is_enabled` reads.  `window` is the
truthiness of `view.window()`; `is_widget` and `repl` are the truthiness
of the corresponding `view.settings().get(...)` values; `work_tree b`
is the truthiness of `self.git_handler.work_tree(b)`. -/
structure View where
  window : Bool
  is_scratch : Bool
  is_read_only : Bool
  is_widget : Bool
  repl : Bool
  encoding : String
  work_tree : Bool → Bool

/-- The mutable state of one `GitGutterCommand` instance together with
the mirrored setting of its view: `_enabled` is `self._enabled`;
`git_gutter_enabled` is the view setting of that name (`none` = never
written; reads use `.getD`, the `settings().get` default). -/
structure State where
  _enabled : Bool
  git_gutter_enabled : Option Bool
  deriving DecidableEq, Repr

/-- The state right after `__init__`: `self._enabled = False`, and the
`git_gutter_enabled` view setting not yet written. -/
def State.fresh : State := ⟨false, none⟩

/-- Read of the mirrored setting with its default:
`view.settings().get("git_gutter_enabled", False)`. -/
def State.mirroredRead (s : State) : Bool :=
  s.git_gutter_enabled.getD false

/-- The validity computation of `is_enabled` (lines 38-64): the `elif`
chain that sets `valid`, then the work-tree step.  Returns the computed
`valid` together with the trace of collaborator calls made so far (a
`work_tree` call when the chain reaches it). -/
def computeValid (settings : Settings) (view : View)
    (event_type : List String) : Bool × List Effect :=
  if !settings.git_binary_path then (false, [])
  else if !view.window then (false, [])
  else if view.is_scratch || view.is_read_only then (false, [])
  else if view.is_widget then (false, [])
  else if view.repl then (false, [])
  else if view.encoding == "Hexadecimal" then (false, [])
  else
    let validate := event_type.any fun event =>
      event == "load" || event == "activated" || event == "post-save"
    (view.work_tree validate, [Effect.workTreeCall validate])

/-- Embedding of `GitGutterCommand.is_enabled` (lines 35-75): computes `valid`, then
runs the changed-state block, returning the result, the new state and
the full effect trace. -/
def is_enabled (settings : Settings) (view : View)
    (event_type : List String) (s : State) :
    Bool × State × List Effect :=
  let r := computeValid settings view event_type
  let valid := r.1
  if valid != s._enabled then
    ( valid,
      ⟨valid, some valid⟩,
      r.2 ++ (if !valid then [Effect.clear] else [])
        ++ [Effect.setSetting valid] )
  else
    (valid, s, r.2)

/-- The keyword arguments a `git_gutter` invocation may carry: the
action identifier (the "action" key of `kwargs`), the
event set (`kwargs.get("event_type", [])`) and the popup parameters
(the "point", "highlight_diff" and "flags" keys);
`none` models an absent key. -/
structure Kwargs where
  action : Option String
  event_type : List String
  point : Option Int
  highlight_diff : Option Bool
  flags : Option Int

/-- Exceptions the dispatcher can raise: `KeyError` from a missing
`kwargs[...]` lookup, and `AssertionError` from `assert False`. -/
inductive DispatchError where
  | keyError : String → DispatchError
  | assertionError : String → DispatchError
  deriving DecidableEq, Repr

/-- Embedding of `GitGutterCommand._handle_event` (lines 84-91). -/
def _handle_event (kwargs : Kwargs) : List Effect :=
  let events := kwargs.event_type
  (if events.any (fun event => !(event == "load" || event == "modified"))
    then [Effect.invalidateGitFile] else [])
    ++ [Effect.refresh]

/-- Embedding of `GitGutterCommand._handle_subcommand` (lines 93-121): routes the
action identifier by exact string match; the popup branch looks up
`point`, `highlight_diff`, `flags` in that order (a missing key raises
`KeyError`); an unmatched identifier hits `assert False`. -/
def _handle_subcommand (kwargs : Kwargs) :
    Except DispatchError (List Effect) :=
  match kwargs.action with
  | none => .error (.keyError "action")
  | some action =>
    if action == "jump_to_next_change" then .ok [Effect.jumpToNextChange]
    else if action == "jump_to_prev_change" then .ok [Effect.jumpToPrevChange]
    else if action == "compare_against_commit" then .ok [Effect.compareCommit]
    else if action == "compare_against_file_commit" then
      .ok [Effect.compareFileCommit]
    else if action == "compare_against_branch" then .ok [Effect.compareBranch]
    else if action == "compare_against_tag" then .ok [Effect.compareTag]
    else if action == "compare_against_head" then .ok [Effect.compareHead]
    else if action == "compare_against_origin" then .ok [Effect.compareOrigin]
    else if action == "show_compare" then .ok [Effect.showCompare]
    else if action == "show_diff_popup" then
      match kwargs.point with
      | none => .error (.keyError "point")
      | some point =>
        match kwargs.highlight_diff with
        | none => .error (.keyError "highlight_diff")
        | some highlight_diff =>
          match kwargs.flags with
          | none => .error (.keyError "flags")
          | some flags => .ok [Effect.popupShow point highlight_diff flags]
    else
      .error (.assertionError
        ("Unhandled sub command \"" ++ action ++ "\""))

/-- Embedding of `GitGutterCommand.run` (lines 77-82): action mode when an `action`
key is present, event mode otherwise. -/
def run (kwargs : Kwargs) : Except DispatchError (List Effect) :=
  if kwargs.action.isSome then _handle_subcommand kwargs
  else .ok (_handle_event kwargs)

/-- Modelled from the spec: the host-side invocation protocol is not in
the source under study (it lives in the `sublime_plugin`
machinery of Sublime Text) — "Enablement is re-evaluated on every invocation via the
Enablement Gate before any dispatch".  The host calls `is_enabled`
first, and calls `run` only when it returned true.  The result is the
post-gate state, the full effect trace in order, and the exception
raised by `run`, if any. -/
def invoke (settings : Settings) (view : View) (kwargs : Kwargs)
    (s : State) : State × List Effect × Option DispatchError :=
  let r := is_enabled settings view kwargs.event_type s
  if r.1 then
    match run kwargs with
    | .ok dispatchEffects => (r.2.1, r.2.2 ++ dispatchEffects, none)
    | .error e => (r.2.1, r.2.2, some e)
  else
    (r.2.1, r.2.2, none)

/-! ### Helper lemmas -/

/-- The `valid`-computation emits at most the single `work_tree` call. -/
theorem computeValid_effects_sub (settings : Settings) (view : View)
    (event_type : List String) :
    (computeValid settings view event_type).2 = []
    ∨ (computeValid settings view event_type).2
      = [Effect.workTreeCall (event_type.any fun event =>
          event == "load" || event == "activated" || event == "post-save")] := by
  unfold computeValid
  repeat' split
  all_goals simp

theorem computeValid_no_clear (settings : Settings) (view : View)
    (event_type : List String) :
    Effect.clear ∉ (computeValid settings view event_type).2 := by
  rcases computeValid_effects_sub settings view event_type with h | h <;>
    simp [h]

theorem computeValid_no_setSetting (settings : Settings) (view : View)
    (event_type : List String) (b : Bool) :
    Effect.setSetting b ∉ (computeValid settings view event_type).2 := by
  rcases computeValid_effects_sub settings view event_type with h | h <;>
    simp [h]

/-- The boolean result of the gate is exactly the computed `valid`. -/
theorem is_enabled_fst (settings : Settings) (view : View)
    (event_type : List String) (s : State) :
    (is_enabled settings view event_type s).1
      = (computeValid settings view event_type).1 := by
  simp only [is_enabled]
  split <;> rfl

/-- After any gate evaluation the private cache holds the returned value. -/
theorem is_enabled_cache (settings : Settings) (view : View)
    (event_type : List String) (s : State) :
    (is_enabled settings view event_type s).2.1._enabled
      = (is_enabled settings view event_type s).1 := by
  simp only [is_enabled]
  split
  · rfl
  · next h =>
      have h2 : (computeValid settings view event_type).1 = s._enabled := by
        simpa using h
      simp [h2]

/-- Steady state: when the computed value equals the cache, the gate
returns it, leaves the state alone and emits only the probe trace. -/
theorem is_enabled_steady (settings : Settings) (view : View)
    (event_type : List String) (s : State)
    (h : (computeValid settings view event_type).1 = s._enabled) :
    is_enabled settings view event_type s
      = (s._enabled, s, (computeValid settings view event_type).2) := by
  simp only [is_enabled]
  rw [if_neg]
  · rw [h]
  · simp [h]

/-- Enabling transition: computed true over a false cache. -/
theorem is_enabled_enable (settings : Settings) (view : View)
    (event_type : List String) (s : State)
    (h1 : (computeValid settings view event_type).1 = true)
    (h2 : s._enabled = false) :
    is_enabled settings view event_type s
      = (true, ⟨true, some true⟩,
        (computeValid settings view event_type).2
          ++ [Effect.setSetting true]) := by
  simp only [is_enabled]
  rw [if_pos]
  · simp [h1]
  · simp [h1, h2]

/-- Disabling transition: computed false over a true cache. -/
theorem is_enabled_disable (settings : Settings) (view : View)
    (event_type : List String) (s : State)
    (h1 : (computeValid settings view event_type).1 = false)
    (h2 : s._enabled = true) :
    is_enabled settings view event_type s
      = (false, ⟨false, some false⟩,
        (computeValid settings view event_type).2
          ++ [Effect.clear, Effect.setSetting false]) := by
  simp only [is_enabled]
  rw [if_pos]
  · simp [h1]
  · simp [h1, h2]

/-! ### Claims about the Enablement Gate -/

/-- C1. On an eligible → ineligible transition (computed false,
cache true) the gate calls `clear()` exactly once, strictly before the
single write of the mirrored setting; `clear()` is never called when
the gate computes true, nor when the computed value equals the cache. -/
theorem clear_once_before_write_on_disable (settings : Settings)
    (view : View) (event_type : List String) (s : State) :
    ((is_enabled settings view event_type s).1 = false →
      s._enabled = true →
      ∃ w, (is_enabled settings view event_type s).2.2
          = w ++ [Effect.clear, Effect.setSetting false]
        ∧ Effect.clear ∉ w ∧ ∀ b, Effect.setSetting b ∉ w)
    ∧ ((is_enabled settings view event_type s).1 = true →
        Effect.clear ∉ (is_enabled settings view event_type s).2.2)
    ∧ ((is_enabled settings view event_type s).1 = s._enabled →
        Effect.clear ∉ (is_enabled settings view event_type s).2.2) := by
  refine ⟨?_, ?_, ?_⟩
  · intro hf ht
    rw [is_enabled_fst] at hf
    rw [is_enabled_disable settings view event_type s hf ht]
    exact ⟨(computeValid settings view event_type).2, rfl,
      computeValid_no_clear _ _ _,
      fun b => computeValid_no_setSetting _ _ _ b⟩
  · intro htr
    rw [is_enabled_fst] at htr
    by_cases hc : s._enabled = true
    · rw [is_enabled_steady settings view event_type s (by rw [htr, hc])]
      simpa using computeValid_no_clear settings view event_type
    · have hc2 : s._enabled = false := by simpa using hc
      rw [is_enabled_enable settings view event_type s htr hc2]
      simp [computeValid_no_clear settings view event_type]
  · intro he
    rw [is_enabled_fst] at he
    rw [is_enabled_steady settings view event_type s he]
    simpa using computeValid_no_clear settings view event_type

/-- Instantiation of the transition property on a concrete run: a
configured tool, a scratch view and a previously-true cache. -/
theorem clear_once_before_write_on_disable_witness :
    ∃ w, (is_enabled ⟨true⟩
        ⟨true, true, false, false, false, "UTF-8", fun _ => false⟩
        [] ⟨true, some true⟩).2.2
      = w ++ [Effect.clear, Effect.setSetting false]
      ∧ Effect.clear ∉ w ∧ ∀ b, Effect.setSetting b ∉ w :=
  (clear_once_before_write_on_disable _ _ _ _).1 (by decide) rfl

/-- C2. When the computed eligibility equals the cached value the
gate performs no side effect (state unchanged, no `clear`, no setting
write); hence a second evaluation with unchanged inputs returns the
same boolean, keeps the state, and is side-effect-free. -/
theorem steady_state_no_side_effects (settings : Settings) (view : View)
    (event_type : List String) (s : State) :
    ((is_enabled settings view event_type s).1 = s._enabled →
      (is_enabled settings view event_type s).2.1 = s
      ∧ Effect.clear ∉ (is_enabled settings view event_type s).2.2
      ∧ ∀ b, Effect.setSetting b
          ∉ (is_enabled settings view event_type s).2.2)
    ∧ ((is_enabled settings view event_type
          (is_enabled settings view event_type s).2.1).1
        = (is_enabled settings view event_type s).1
      ∧ (is_enabled settings view event_type
          (is_enabled settings view event_type s).2.1).2.1
        = (is_enabled settings view event_type s).2.1
      ∧ Effect.clear ∉ (is_enabled settings view event_type
          (is_enabled settings view event_type s).2.1).2.2
      ∧ ∀ b, Effect.setSetting b ∉ (is_enabled settings view event_type
          (is_enabled settings view event_type s).2.1).2.2) := by
  have hs2 : (computeValid settings view event_type).1
      = (is_enabled settings view event_type s).2.1._enabled := by
    rw [is_enabled_cache, is_enabled_fst]
  constructor
  · intro h
    rw [is_enabled_fst] at h
    rw [is_enabled_steady settings view event_type s h]
    exact ⟨rfl, computeValid_no_clear _ _ _,
      fun b => computeValid_no_setSetting _ _ _ b⟩
  · rw [is_enabled_steady settings view event_type
      (is_enabled settings view event_type s).2.1 hs2]
    refine ⟨?_, rfl, computeValid_no_clear _ _ _,
      fun b => computeValid_no_setSetting _ _ _ b⟩
    rw [is_enabled_cache]

/-- Instantiation of the steady-state property: an eligible view whose
cache already reads true — re-evaluation changes nothing. -/
theorem steady_state_no_side_effects_witness :
    (is_enabled ⟨true⟩
        ⟨true, false, false, false, false, "UTF-8", fun _ => true⟩
        ["modified"] ⟨true, some true⟩).2.1 = ⟨true, some true⟩
    ∧ Effect.clear ∉ (is_enabled ⟨true⟩
        ⟨true, false, false, false, false, "UTF-8", fun _ => true⟩
        ["modified"] ⟨true, some true⟩).2.2
    ∧ ∀ b, Effect.setSetting b ∉ (is_enabled ⟨true⟩
        ⟨true, false, false, false, false, "UTF-8", fun _ => true⟩
        ["modified"] ⟨true, some true⟩).2.2 :=
  (steady_state_no_side_effects _ _ _ _).1 (by decide)

/-- When every guard of the `elif` chain passes, the computation is
exactly the work-tree resolution with the event-derived `validate`. -/
theorem computeValid_work_tree (settings : Settings) (view : View)
    (event_type : List String)
    (h1 : settings.git_binary_path = true) (h2 : view.window = true)
    (h3 : view.is_scratch = false) (h4 : view.is_read_only = false)
    (h5 : view.is_widget = false) (h6 : view.repl = false)
    (h7 : view.encoding ≠ "Hexadecimal") :
    computeValid settings view event_type
      = (view.work_tree (event_type.any fun event =>
          event == "load" || event == "activated" || event == "post-save"),
        [Effect.workTreeCall (event_type.any fun event =>
          event == "load" || event == "activated" || event == "post-save")]) := by
  unfold computeValid
  simp [h1, h2, h3, h4, h5, h6, h7]

/-- A scratch view short-circuits the chain: `valid = False` and the
work-tree resolver is never consulted. -/
theorem computeValid_scratch (settings : Settings) (view : View)
    (event_type : List String) (h : view.is_scratch = true) :
    (computeValid settings view event_type).1 = false
    ∧ (computeValid settings view event_type).2 = [] := by
  unfold computeValid
  repeat' split
  all_goals simp_all

/-- C5. Whenever the gate reaches the work-tree step, the resolver
is called exactly once, with `validate` true exactly when the event
context holds one of `load`, `activated`, `post-save`; a failing
resolution makes the document ineligible. -/
theorem work_tree_validation (settings : Settings) (view : View)
    (event_type : List String) (s : State)
    (h1 : settings.git_binary_path = true) (h2 : view.window = true)
    (h3 : view.is_scratch = false) (h4 : view.is_read_only = false)
    (h5 : view.is_widget = false) (h6 : view.repl = false)
    (h7 : view.encoding ≠ "Hexadecimal") :
    ((is_enabled settings view event_type s).1
      = view.work_tree (event_type.any fun event =>
          event == "load" || event == "activated" || event == "post-save"))
    ∧ (∃ w, (is_enabled settings view event_type s).2.2
        = Effect.workTreeCall (event_type.any fun event =>
            event == "load" || event == "activated" || event == "post-save")
          :: w
        ∧ ∀ b, Effect.workTreeCall b ∉ w)
    ∧ ((event_type.any fun event =>
          event == "load" || event == "activated" || event == "post-save")
          = true
        ↔ "load" ∈ event_type ∨ "activated" ∈ event_type
          ∨ "post-save" ∈ event_type)
    ∧ (view.work_tree (event_type.any fun event =>
          event == "load" || event == "activated" || event == "post-save")
          = false →
        (is_enabled settings view event_type s).1 = false) := by
  have hcv := computeValid_work_tree settings view event_type
    h1 h2 h3 h4 h5 h6 h7
  refine ⟨?_, ?_, ?_, ?_⟩
  · rw [is_enabled_fst, hcv]
  · by_cases hs : (computeValid settings view event_type).1 = s._enabled
    · rw [is_enabled_steady settings view event_type s hs]
      exact ⟨[], by simp [hcv], by simp⟩
    · cases hb : (computeValid settings view event_type).1 with
      | true =>
        have hc : s._enabled = false := by
          cases hcache : s._enabled
          · rfl
          · exact absurd (hb.trans hcache.symm) hs
        rw [is_enabled_enable settings view event_type s hb hc]
        exact ⟨[Effect.setSetting true], by simp [hcv], by simp⟩
      | false =>
        have hc : s._enabled = true := by
          cases hcache : s._enabled
          · exact absurd (hb.trans hcache.symm) hs
          · rfl
        rw [is_enabled_disable settings view event_type s hb hc]
        exact ⟨[Effect.clear, Effect.setSetting false], by simp [hcv],
          by simp⟩
  · constructor
    · intro hany
      rw [List.any_eq_true] at hany
      obtain ⟨x, hx, hp⟩ := hany
      simp only [Bool.or_eq_true, beq_iff_eq] at hp
      rcases hp with (rfl | rfl) | rfl
      · exact Or.inl hx
      · exact Or.inr (Or.inl hx)
      · exact Or.inr (Or.inr hx)
    · rintro (hm | hm | hm) <;> rw [List.any_eq_true]
      · exact ⟨"load", hm, by simp⟩
      · exact ⟨"activated", hm, by simp⟩
      · exact ⟨"post-save", hm, by simp⟩
  · intro hw
    rw [is_enabled_fst, hcv]
    exact hw

/-- Instantiation of the work-tree step: a `load` event on a document
outside any repository is probed with `validate = true` and found
ineligible. -/
theorem work_tree_validation_witness :
    ((is_enabled ⟨true⟩
        ⟨true, false, false, false, false, "UTF-8", fun _ => false⟩
        ["load"] State.fresh).1
      = (⟨true, false, false, false, false, "UTF-8", fun _ => false⟩
          : View).work_tree (["load"].any fun event =>
            event == "load" || event == "activated"
              || event == "post-save"))
    ∧ ((["load"].any fun event =>
          event == "load" || event == "activated" || event == "post-save")
          = true
        ↔ "load" ∈ ["load"] ∨ "activated" ∈ ["load"]
          ∨ "post-save" ∈ ["load"])
    ∧ (is_enabled ⟨true⟩
        ⟨true, false, false, false, false, "UTF-8", fun _ => false⟩
        ["load"] State.fresh).1 = false :=
  ⟨(work_tree_validation _ _ _ _ rfl rfl rfl rfl rfl rfl
      (by decide)).1,
    (work_tree_validation ⟨true⟩
        ⟨true, false, false, false, false, "UTF-8", fun _ => false⟩
        ["load"] State.fresh rfl rfl rfl rfl rfl rfl (by decide)).2.2.1,
    (work_tree_validation ⟨true⟩
        ⟨true, false, false, false, false, "UTF-8", fun _ => false⟩
        ["load"] State.fresh rfl rfl rfl rfl rfl rfl
        (by decide)).2.2.2 rfl⟩

/-- C6. A scratch document is always ineligible: the gate returns
false, the mirrored setting reads false afterwards, and the work-tree
resolver is never called. -/
theorem scratch_ineligible (settings : Settings) (view : View)
    (event_type : List String) (s : State)
    (hscr : view.is_scratch = true)
    (hinv : s.mirroredRead = s._enabled) :
    (is_enabled settings view event_type s).1 = false
    ∧ (is_enabled settings view event_type s).2.1.mirroredRead = false
    ∧ ∀ b, Effect.workTreeCall b
        ∉ (is_enabled settings view event_type s).2.2 := by
  obtain ⟨hv, he⟩ := computeValid_scratch settings view event_type hscr
  by_cases hc : s._enabled = true
  · rw [is_enabled_disable settings view event_type s hv hc]
    exact ⟨rfl, rfl, fun b => by simp [he]⟩
  · have hc2 : s._enabled = false := by simpa using hc
    rw [is_enabled_steady settings view event_type s (hv.trans hc2.symm)]
    exact ⟨hc2, hinv.trans hc2, fun b => by simp [he]⟩

/-- Instantiation of the scratch scenario: a previously-eligible view
that became scratch. -/
theorem scratch_ineligible_witness :
    (is_enabled ⟨true⟩
        ⟨true, true, false, false, false, "UTF-8", fun _ => true⟩
        ["modified"] ⟨true, some true⟩).1 = false
    ∧ (is_enabled ⟨true⟩
        ⟨true, true, false, false, false, "UTF-8", fun _ => true⟩
        ["modified"] ⟨true, some true⟩).2.1.mirroredRead = false
    ∧ ∀ b, Effect.workTreeCall b ∉ (is_enabled ⟨true⟩
        ⟨true, true, false, false, false, "UTF-8", fun _ => true⟩
        ["modified"] ⟨true, some true⟩).2.2 :=
  scratch_ineligible _ _ _ _ rfl rfl

/-! ### Sequences of gate evaluations -/

/-- Folding a sequence of gate evaluations (each with its own
configuration, view flags and event context) over the command state. -/
def evalSeq (inputs : List (Settings × View × List String))
    (s : State) : State :=
  inputs.foldl (fun st i => (is_enabled i.1 i.2.1 i.2.2 st).2.1) s

/-- Like `evalSeq`, but also collecting the concatenated effect trace. -/
def evalSeqEffects (inputs : List (Settings × View × List String))
    (s : State) : State × List Effect :=
  match inputs with
  | [] => (s, [])
  | i :: rest =>
    let r := is_enabled i.1 i.2.1 i.2.2 s
    let t := evalSeqEffects rest r.2.1
    (t.1, r.2.2 ++ t.2)

/-- One gate evaluation preserves agreement of the mirrored setting
with the private cache. -/
theorem mirrored_step (settings : Settings) (view : View)
    (event_type : List String) (s : State)
    (h : s.mirroredRead = s._enabled) :
    (is_enabled settings view event_type s).2.1.mirroredRead
      = (is_enabled settings view event_type s).2.1._enabled := by
  simp only [is_enabled]
  split
  · rfl
  · exact h

/-- C7. Starting from a freshly constructed command, after every
gate evaluation the mirrored setting (read with default false) equals
the private cache. -/
theorem mirrored_matches_cache
    (inputs : List (Settings × View × List String)) :
    (evalSeq inputs State.fresh).mirroredRead
      = (evalSeq inputs State.fresh)._enabled := by
  have main : ∀ (l : List (Settings × View × List String)) (s : State),
      s.mirroredRead = s._enabled →
      (evalSeq l s).mirroredRead = (evalSeq l s)._enabled := by
    intro l
    induction l with
    | nil => intro s h; exact h
    | cons i rest ih =>
      intro s h
      simp only [evalSeq, List.foldl_cons] at ih ⊢
      exact ih _ (mirrored_step i.1 i.2.1 i.2.2 s h)
  exact main inputs State.fresh rfl

/-- Instantiation of the invariant on a concrete two-step history. -/
theorem mirrored_matches_cache_witness :
    (evalSeq [(⟨true⟩, ⟨true, false, false, false, false, "UTF-8",
          fun _ => true⟩, ["load"]),
        (⟨true⟩, ⟨true, true, false, false, false, "UTF-8",
          fun _ => true⟩, ["modified"])] State.fresh).mirroredRead
      = (evalSeq [(⟨true⟩, ⟨true, false, false, false, false, "UTF-8",
          fun _ => true⟩, ["load"]),
        (⟨true⟩, ⟨true, true, false, false, false, "UTF-8",
          fun _ => true⟩, ["modified"])] State.fresh)._enabled :=
  mirrored_matches_cache _

/-- A run of evaluations that all compute `valid = False` over a
false cache is a no-op: state kept, no `clear`, no setting write. -/
theorem evalSeqEffects_all_false
    (inputs : List (Settings × View × List String)) (s : State)
    (hs : s._enabled = false)
    (hall : ∀ i ∈ inputs, (computeValid i.1 i.2.1 i.2.2).1 = false) :
    (evalSeqEffects inputs s).1 = s
    ∧ Effect.clear ∉ (evalSeqEffects inputs s).2
    ∧ ∀ b, Effect.setSetting b ∉ (evalSeqEffects inputs s).2 := by
  induction inputs with
  | nil => simp [evalSeqEffects]
  | cons i rest ih =>
    have hi := hall i (List.mem_cons_self i rest)
    have hstep := is_enabled_steady i.1 i.2.1 i.2.2 s (hi.trans hs.symm)
    obtain ⟨ha, hb, hc⟩ :=
      ih fun j hj => hall j (List.mem_cons_of_mem i hj)
    simp only [evalSeqEffects, hstep]
    refine ⟨ha, ?_, ?_⟩
    · simp only [List.mem_append, not_or]
      exact ⟨computeValid_no_clear _ _ _, hb⟩
    · intro b
      simp only [List.mem_append, not_or]
      exact ⟨computeValid_no_setSetting _ _ _ b, hc b⟩

/-- C10. The `__init__` method leaves the private cache false; while every
evaluation keeps computing false nothing is ever cleared or written;
the first evaluation that computes true writes `true` to the mirrored
setting (and never calls `clear`). -/
theorem fresh_cache_false_quiescent
    (inputs : List (Settings × View × List String))
    (settings : Settings) (view : View) (event_type : List String)
    (s : State) :
    State.fresh._enabled = false
    ∧ ((∀ i ∈ inputs, (computeValid i.1 i.2.1 i.2.2).1 = false) →
        (evalSeqEffects inputs State.fresh).1 = State.fresh
        ∧ Effect.clear ∉ (evalSeqEffects inputs State.fresh).2
        ∧ ∀ b, Effect.setSetting b
            ∉ (evalSeqEffects inputs State.fresh).2)
    ∧ (s._enabled = false →
        (is_enabled settings view event_type s).1 = true →
        ∃ w, (is_enabled settings view event_type s).2.2
            = w ++ [Effect.setSetting true]
          ∧ Effect.clear ∉ (is_enabled settings view event_type s).2.2) := by
  refine ⟨rfl, fun hall => evalSeqEffects_all_false inputs State.fresh
    rfl hall, ?_⟩
  intro hs ht
  rw [is_enabled_fst] at ht
  rw [is_enabled_enable settings view event_type s ht hs]
  exact ⟨(computeValid settings view event_type).2, rfl,
    by simp [computeValid_no_clear settings view event_type]⟩

/-- Instantiation: two ineligible evaluations from a fresh command are
effect-free, and a first eligible evaluation writes `true`. -/
theorem fresh_cache_false_quiescent_witness :
    ((evalSeqEffects
        [(⟨false⟩, ⟨true, false, false, false, false, "UTF-8",
            fun _ => true⟩, []),
          (⟨true⟩, ⟨true, true, false, false, false, "UTF-8",
            fun _ => true⟩, [])] State.fresh).1 = State.fresh
      ∧ Effect.clear ∉ (evalSeqEffects
          [(⟨false⟩, ⟨true, false, false, false, false, "UTF-8",
              fun _ => true⟩, []),
            (⟨true⟩, ⟨true, true, false, false, false, "UTF-8",
              fun _ => true⟩, [])] State.fresh).2
      ∧ ∀ b, Effect.setSetting b ∉ (evalSeqEffects
          [(⟨false⟩, ⟨true, false, false, false, false, "UTF-8",
              fun _ => true⟩, []),
            (⟨true⟩, ⟨true, true, false, false, false, "UTF-8",
              fun _ => true⟩, [])] State.fresh).2)
    ∧ (∃ w, (is_enabled ⟨true⟩
          ⟨true, false, false, false, false, "UTF-8", fun _ => true⟩
          [] State.fresh).2.2 = w ++ [Effect.setSetting true]
        ∧ Effect.clear ∉ (is_enabled ⟨true⟩
            ⟨true, false, false, false, false, "UTF-8", fun _ => true⟩
            [] State.fresh).2.2) :=
  ⟨(fresh_cache_false_quiescent _ ⟨true⟩
      ⟨true, false, false, false, false, "UTF-8", fun _ => true⟩
      [] State.fresh).2.1 (by decide),
    (fresh_cache_false_quiescent []
      ⟨true⟩ ⟨true, false, false, false, false, "UTF-8", fun _ => true⟩
      [] State.fresh).2.2 rfl (by decide)⟩

/-! ### Claims about the Action Router -/

/-- C3. Event-mode dispatch: the cached git file is invalidated iff
some event lies outside `{load, modified}`, the invalidation (when it
happens) precedes the refresh, and `refresh` runs exactly once,
unconditionally; `["modified"]` never invalidates, `post-save` always
does. -/
theorem event_mode_invalidate_policy (kwargs : Kwargs)
    (h : kwargs.action = none) :
    run kwargs = .ok (_handle_event kwargs)
    ∧ ((∃ e ∈ kwargs.event_type, e ≠ "load" ∧ e ≠ "modified") →
        _handle_event kwargs
          = [Effect.invalidateGitFile, Effect.refresh])
    ∧ ((∀ e ∈ kwargs.event_type, e = "load" ∨ e = "modified") →
        _handle_event kwargs = [Effect.refresh])
    ∧ (kwargs.event_type = ["modified"] →
        _handle_event kwargs = [Effect.refresh])
    ∧ ("post-save" ∈ kwargs.event_type →
        _handle_event kwargs
          = [Effect.invalidateGitFile, Effect.refresh]) := by
  have hmod : ∀ l : List String, (∀ e ∈ l, e = "load" ∨ e = "modified") →
      (l.any fun event => !(event == "load" || event == "modified"))
        = false := by
    intro l hall
    rw [Bool.eq_false_iff]
    intro hany
    rw [List.any_eq_true] at hany
    obtain ⟨x, hx, hp⟩ := hany
    simp only [Bool.not_eq_eq_eq_not, Bool.not_true, Bool.or_eq_false_iff,
      beq_eq_false_iff_ne] at hp
    rcases hall x hx with rfl | rfl
    · exact hp.1 rfl
    · exact hp.2 rfl
  refine ⟨by simp [run, h], ?_, ?_, ?_, ?_⟩
  · rintro ⟨e, he, h1, h2⟩
    simp only [_handle_event]
    rw [if_pos]
    · rfl
    · rw [List.any_eq_true]
      exact ⟨e, he, by simp [h1, h2]⟩
  · intro hall
    simp only [_handle_event]
    rw [if_neg]
    · rfl
    · rw [hmod kwargs.event_type hall]
      exact Bool.false_ne_true
  · intro heq
    simp only [_handle_event]
    rw [heq, if_neg]
    · rfl
    · decide
  · intro hmem
    simp only [_handle_event]
    rw [if_pos]
    · rfl
    · rw [List.any_eq_true]
      exact ⟨"post-save", hmem, by decide⟩

/-- Instantiation of the event-mode policy on the `post-save` and
`modified` dispatches. -/
theorem event_mode_invalidate_policy_witness :
    run ⟨none, ["post-save"], none, none, none⟩
      = .ok (_handle_event ⟨none, ["post-save"], none, none, none⟩)
    ∧ _handle_event ⟨none, ["post-save"], none, none, none⟩
      = [Effect.invalidateGitFile, Effect.refresh]
    ∧ _handle_event ⟨none, ["modified"], none, none, none⟩
      = [Effect.refresh] :=
  ⟨(event_mode_invalidate_policy ⟨none, ["post-save"], none, none, none⟩
      rfl).1,
    (event_mode_invalidate_policy ⟨none, ["post-save"], none, none, none⟩
      rfl).2.2.2.2 (by decide),
    (event_mode_invalidate_policy ⟨none, ["modified"], none, none, none⟩
      rfl).2.2.2.1 rfl⟩

/-- C4. Action-mode dispatch: each of the ten enumerated action
identifiers routes to exactly one handler invocation (a singleton
trace of the matching handler), and any identifier outside the set is
a fatal assertion failure, never a silent no-op. -/
theorem action_routing (kwargs : Kwargs) (action : String)
    (h : kwargs.action = some action) :
    (action = "jump_to_next_change" →
      _handle_subcommand kwargs = .ok [Effect.jumpToNextChange])
    ∧ (action = "jump_to_prev_change" →
      _handle_subcommand kwargs = .ok [Effect.jumpToPrevChange])
    ∧ (action = "compare_against_commit" →
      _handle_subcommand kwargs = .ok [Effect.compareCommit])
    ∧ (action = "compare_against_file_commit" →
      _handle_subcommand kwargs = .ok [Effect.compareFileCommit])
    ∧ (action = "compare_against_branch" →
      _handle_subcommand kwargs = .ok [Effect.compareBranch])
    ∧ (action = "compare_against_tag" →
      _handle_subcommand kwargs = .ok [Effect.compareTag])
    ∧ (action = "compare_against_head" →
      _handle_subcommand kwargs = .ok [Effect.compareHead])
    ∧ (action = "compare_against_origin" →
      _handle_subcommand kwargs = .ok [Effect.compareOrigin])
    ∧ (action = "show_compare" →
      _handle_subcommand kwargs = .ok [Effect.showCompare])
    ∧ (action = "show_diff_popup" → ∀ p hd f,
        kwargs.point = some p → kwargs.highlight_diff = some hd →
        kwargs.flags = some f →
        _handle_subcommand kwargs = .ok [Effect.popupShow p hd f])
    ∧ (action ∉ (["jump_to_next_change", "jump_to_prev_change",
          "compare_against_commit", "compare_against_file_commit",
          "compare_against_branch", "compare_against_tag",
          "compare_against_head", "compare_against_origin",
          "show_compare", "show_diff_popup"] : List String) →
        _handle_subcommand kwargs
          = .error (.assertionError
              ("Unhandled sub command \"" ++ action ++ "\""))) := by
  refine ⟨?_, ?_, ?_, ?_, ?_, ?_, ?_, ?_, ?_, ?_, ?_⟩
  · rintro rfl; simp [_handle_subcommand, h]
  · rintro rfl; simp [_handle_subcommand, h]
  · rintro rfl; simp [_handle_subcommand, h]
  · rintro rfl; simp [_handle_subcommand, h]
  · rintro rfl; simp [_handle_subcommand, h]
  · rintro rfl; simp [_handle_subcommand, h]
  · rintro rfl; simp [_handle_subcommand, h]
  · rintro rfl; simp [_handle_subcommand, h]
  · rintro rfl; simp [_handle_subcommand, h]
  · rintro rfl
    intro p hd f hp hh hf
    simp [_handle_subcommand, h, hp, hh, hf]
  · intro hnot
    simp only [List.mem_cons, List.not_mem_nil, or_false, not_or] at hnot
    obtain ⟨n1, n2, n3, n4, n5, n6, n7, n8, n9, n10⟩ := hnot
    simp [_handle_subcommand, h, n1, n2, n3, n4, n5, n6, n7, n8, n9, n10]

/-- Instantiation of the routing table on three concrete requests. -/
theorem action_routing_witness :
    _handle_subcommand ⟨some "compare_against_head", [], none, none, none⟩
      = .ok [Effect.compareHead]
    ∧ _handle_subcommand ⟨some "frobnicate", [], none, none, none⟩
      = .error (.assertionError
          ("Unhandled sub command \"" ++ "frobnicate" ++ "\""))
    ∧ _handle_subcommand
        ⟨some "show_diff_popup", [], some 120, some true, some 0⟩
      = .ok [Effect.popupShow 120 true 0] :=
  ⟨(action_routing ⟨some "compare_against_head", [], none, none, none⟩
      "compare_against_head" rfl).2.2.2.2.2.2.1 rfl,
    (action_routing ⟨some "frobnicate", [], none, none, none⟩
      "frobnicate" rfl).2.2.2.2.2.2.2.2.2.2 (by decide),
    (action_routing ⟨some "show_diff_popup", [], some 120, some true,
        some 0⟩ "show_diff_popup" rfl).2.2.2.2.2.2.2.2.2.1
      rfl 120 true 0 rfl rfl rfl⟩

/-- C9. The popup dispatch threads `point`, `highlight_diff` and
`flags` through unchanged into a single popup call; a missing key
raises the corresponding `KeyError` (in lookup order) and no popup
call is made. -/
theorem popup_params_threaded (kwargs : Kwargs)
    (h : kwargs.action = some "show_diff_popup") :
    (∀ p hd f, kwargs.point = some p → kwargs.highlight_diff = some hd →
      kwargs.flags = some f →
      run kwargs = .ok [Effect.popupShow p hd f])
    ∧ (kwargs.point = none → run kwargs = .error (.keyError "point"))
    ∧ (∀ p, kwargs.point = some p → kwargs.highlight_diff = none →
        run kwargs = .error (.keyError "highlight_diff"))
    ∧ (∀ p hd, kwargs.point = some p → kwargs.highlight_diff = some hd →
        kwargs.flags = none →
        run kwargs = .error (.keyError "flags"))
    ∧ ((kwargs.point = none ∨ kwargs.highlight_diff = none
          ∨ kwargs.flags = none) →
        ∃ key, run kwargs = .error (.keyError key)) := by
  have hrun : run kwargs = _handle_subcommand kwargs := by
    simp [run, h]
  refine ⟨?_, ?_, ?_, ?_, ?_⟩
  · intro p hd f hp hh hf
    rw [hrun]
    simp [_handle_subcommand, h, hp, hh, hf]
  · intro hp
    rw [hrun]
    simp [_handle_subcommand, h, hp]
  · intro p hp hh
    rw [hrun]
    simp [_handle_subcommand, h, hp, hh]
  · intro p hd hp hh hf
    rw [hrun]
    simp [_handle_subcommand, h, hp, hh, hf]
  · rintro (hp | hh | hf)
    · exact ⟨"point", by rw [hrun]; simp [_handle_subcommand, h, hp]⟩
    · rcases hp2 : kwargs.point with _ | p
      · exact ⟨"point", by rw [hrun]; simp [_handle_subcommand, h, hp2]⟩
      · exact ⟨"highlight_diff",
          by rw [hrun]; simp [_handle_subcommand, h, hp2, hh]⟩
    · rcases hp2 : kwargs.point with _ | p
      · exact ⟨"point", by rw [hrun]; simp [_handle_subcommand, h, hp2]⟩
      · rcases hh2 : kwargs.highlight_diff with _ | hd
        · exact ⟨"highlight_diff",
            by rw [hrun]; simp [_handle_subcommand, h, hp2, hh2]⟩
        · exact ⟨"flags",
            by rw [hrun]; simp [_handle_subcommand, h, hp2, hh2, hf]⟩

/-- Instantiation of the popup scenario (`point=120`,
`highlight_diff=true`, `flags=0`) and of a missing `point` key. -/
theorem popup_params_threaded_witness :
    run ⟨some "show_diff_popup", [], some 120, some true, some 0⟩
      = .ok [Effect.popupShow 120 true 0]
    ∧ run ⟨some "show_diff_popup", [], none, some true, some 0⟩
      = .error (.keyError "point") :=
  ⟨(popup_params_threaded
      ⟨some "show_diff_popup", [], some 120, some true, some 0⟩ rfl).1
      120 true 0 rfl rfl rfl,
    (popup_params_threaded
      ⟨some "show_diff_popup", [], none, some true, some 0⟩ rfl).2.1 rfl⟩

/-! ### Gate-before-dispatch ordering -/

/-- Classifies the effects the Enablement Gate itself may emit, as
opposed to event handling and action dispatch. -/
def Effect.isGateEffect : Effect → Bool
  | .clear => true
  | .setSetting _ => true
  | .workTreeCall _ => true
  | _ => false

/-- Every effect of a gate evaluation is a gate effect. -/
theorem is_enabled_effects_gate (settings : Settings) (view : View)
    (event_type : List String) (s : State) :
    ∀ e ∈ (is_enabled settings view event_type s).2.2,
      e.isGateEffect = true := by
  have hcv2 : ∀ e ∈ (computeValid settings view event_type).2,
      e.isGateEffect = true := by
    intro e he
    rcases computeValid_effects_sub settings view event_type with
      hcv | hcv <;> rw [hcv] at he
    · simp at he
    · simp at he; rw [he]; rfl
  intro e he
  simp only [is_enabled] at he
  split at he
  · simp only [List.mem_append] at he
    rcases he with (he | he) | he
    · exact hcv2 e he
    · split at he <;> simp at he
      rw [he]; rfl
    · simp at he; rw [he]; rfl
  · exact hcv2 e he

/-- Event-mode effects are dispatch effects, not gate effects. -/
theorem _handle_event_effects_dispatch (kwargs : Kwargs) :
    ∀ e ∈ _handle_event kwargs, e.isGateEffect = false := by
  intro e he
  simp only [_handle_event] at he
  split at he <;> simp at he
  · rcases he with rfl | rfl <;> rfl
  · rw [he]; rfl

set_option maxHeartbeats 1600000 in
/-- Action-mode effects are dispatch effects, not gate effects. -/
theorem _handle_subcommand_effects_dispatch (kwargs : Kwargs)
    (l : List Effect) (h : _handle_subcommand kwargs = .ok l) :
    ∀ e ∈ l, e.isGateEffect = false := by
  obtain ⟨act, ev, pt, hd, fl⟩ := kwargs
  cases act with
  | none => simp [_handle_subcommand] at h
  | some a =>
    unfold _handle_subcommand at h
    simp only at h
    split_ifs at h
    · simp only [Except.ok.injEq] at h; subst h
      intro e he; simp at he; subst he; rfl
    · simp only [Except.ok.injEq] at h; subst h
      intro e he; simp at he; subst he; rfl
    · simp only [Except.ok.injEq] at h; subst h
      intro e he; simp at he; subst he; rfl
    · simp only [Except.ok.injEq] at h; subst h
      intro e he; simp at he; subst he; rfl
    · simp only [Except.ok.injEq] at h; subst h
      intro e he; simp at he; subst he; rfl
    · simp only [Except.ok.injEq] at h; subst h
      intro e he; simp at he; subst he; rfl
    · simp only [Except.ok.injEq] at h; subst h
      intro e he; simp at he; subst he; rfl
    · simp only [Except.ok.injEq] at h; subst h
      intro e he; simp at he; subst he; rfl
    · simp only [Except.ok.injEq] at h; subst h
      intro e he; simp at he; subst he; rfl
    · cases pt with
      | none => simp at h
      | some p =>
        cases hd with
        | none => simp at h
        | some d =>
          cases fl with
          | none => simp at h
          | some f =>
            simp only [Except.ok.injEq] at h; subst h
            intro e he; simp at he; subst he; rfl

/-- A successful `run` only emits dispatch effects. -/
theorem run_ok_dispatch (kwargs : Kwargs) (l : List Effect)
    (h : run kwargs = .ok l) :
    ∀ e ∈ l, e.isGateEffect = false := by
  unfold run at h
  split at h
  · exact _handle_subcommand_effects_dispatch kwargs l h
  · simp only [Except.ok.injEq] at h
    subst h
    exact _handle_event_effects_dispatch kwargs

/-- C8. Modelled from the spec (host invocation protocol): every
invocation evaluates the gate first; the invocation trace is exactly
the trace of the gate followed by dispatch effects only, so no handler runs
without a preceding gate evaluation. -/
theorem gate_before_dispatch (settings : Settings) (view : View)
    (kwargs : Kwargs) (s : State) :
    ∃ d, (invoke settings view kwargs s).2.1
        = (is_enabled settings view kwargs.event_type s).2.2 ++ d
      ∧ (∀ e ∈ (is_enabled settings view kwargs.event_type s).2.2,
          e.isGateEffect = true)
      ∧ ∀ e ∈ d, e.isGateEffect = false := by
  simp only [invoke]
  split
  · cases hr : run kwargs with
    | ok l =>
      exact ⟨l, by simp [hr], is_enabled_effects_gate _ _ _ _,
        run_ok_dispatch kwargs l hr⟩
    | error err =>
      exact ⟨[], by simp [hr], is_enabled_effects_gate _ _ _ _, by simp⟩
  · exact ⟨[], by simp, is_enabled_effects_gate _ _ _ _, by simp⟩

/-- Instantiation of the ordering property on a concrete
`modified`-event invocation of an eligible document. -/
theorem gate_before_dispatch_witness :
    ∃ d, (invoke ⟨true⟩
        ⟨true, false, false, false, false, "UTF-8", fun _ => true⟩
        ⟨none, ["modified"], none, none, none⟩ State.fresh).2.1
      = (is_enabled ⟨true⟩
          ⟨true, false, false, false, false, "UTF-8", fun _ => true⟩
          ["modified"] State.fresh).2.2 ++ d
      ∧ (∀ e ∈ (is_enabled ⟨true⟩
          ⟨true, false, false, false, false, "UTF-8", fun _ => true⟩
          ["modified"] State.fresh).2.2, e.isGateEffect = true)
      ∧ ∀ e ∈ d, e.isGateEffect = false :=
  gate_before_dispatch ⟨true⟩
    ⟨true, false, false, false, false, "UTF-8", fun _ => true⟩
    ⟨none, ["modified"], none, none, none⟩ State.fresh

end GitGutter
